import Mathlib

/-
Verification of the on-demand feature view core
(`sdk/python/feast/on_demand_feature_view.py`).

A tabular batch (pandas `DataFrame`) is embedded as an ordered association
list of named, typed columns.  Column assignment (`df[c] = s`) overwrites an
existing column in place and otherwise appends at the end, matching pandas;
`df.drop(columns=...)` removes the named columns.  The user-defined transform
(the `udf`) is a pure batch-to-batch function that may raise, embedded as a
function into `Except`.
-/

set_option autoImplicit false

namespace Feast

/-- A cell value of a tabular column.  Values are opaque to the engine: the
core never computes with them, it only moves whole columns around. -/
inductive Val where
  | vInt : Int → Val
  | vStr : String → Val
deriving DecidableEq, Repr

/-- A native (pandas) column dtype. -/
inductive PandasType where
  | int64
  | float64
  | object
  | boolean
deriving DecidableEq, Repr

/-- Modelled from the spec: the abstract value-type enumeration
(`feast.value_type.ValueType`, not under src/); the spec only requires an
enumeration with stable ordinals, bidirectionally mapped to native types. -/
inductive ValueType where
  | UNKNOWN
  | STRING
  | INT64
  | DOUBLE
  | BOOL
deriving DecidableEq, Repr

/-- Modelled from the spec: the protobuf ordinal of a value type (the wire
form stores the ordinal; `ValueType(feature.value_type)` recovers the enum). -/
def valueTypeToOrdinal : ValueType → Nat
  | ValueType.UNKNOWN => 0
  | ValueType.STRING => 2
  | ValueType.INT64 => 4
  | ValueType.DOUBLE => 5
  | ValueType.BOOL => 7

/-- Modelled from the spec: recovering a value type from its wire ordinal. -/
def ordinalToValueType : Nat → ValueType
  | 2 => ValueType.STRING
  | 4 => ValueType.INT64
  | 5 => ValueType.DOUBLE
  | 7 => ValueType.BOOL
  | _ => ValueType.UNKNOWN

/-- Modelled from the spec: `feast.type_map.feast_value_type_to_pandas_type`
(not under src/), the value-type-to-native-type direction of the external
bidirectional mapping. -/
def feast_value_type_to_pandas_type : ValueType → PandasType
  | ValueType.INT64 => PandasType.int64
  | ValueType.DOUBLE => PandasType.float64
  | ValueType.STRING => PandasType.object
  | ValueType.BOOL => PandasType.boolean
  | ValueType.UNKNOWN => PandasType.object

/-- Modelled from the spec: `feast.type_map.python_type_to_feast_value_type`
(not under src/), the native-type-to-value-type direction of the mapping; the
source passes the column name along with the dtype name. -/
def python_type_to_feast_value_type (_f : String) : PandasType → ValueType
  | PandasType.int64 => ValueType.INT64
  | PandasType.float64 => ValueType.DOUBLE
  | PandasType.object => ValueType.STRING
  | PandasType.boolean => ValueType.BOOL

/-- Modelled from the spec: a Feature Schema Element
(`feast.feature.Feature`, not under src/): name, value type, labels. -/
structure Feature where
  name : String
  dtype : ValueType
  labels : List (String × String)
deriving DecidableEq, Repr

/-- Modelled from the spec: Feature equality is by `(name, value_type)`;
this is the equality the membership check of the inference engine uses. -/
def Feature.feq (a b : Feature) : Bool :=
  a.name == b.name && a.dtype == b.dtype

/-- A typed column: its dtype and its cells, one per row. -/
structure Column where
  dtype : PandasType
  values : List Val
deriving DecidableEq, Repr

/-- A tabular batch: an ordered association list of named columns. -/
abbrev Batch := List (String × Column)

/-- The column names of a batch (pandas `df.keys()` / `df.columns`). -/
def keys (b : Batch) : List String :=
  b.map Prod.fst

/-- Column lookup (pandas `df[n]` read). -/
def getCol (b : Batch) (n : String) : Option Column :=
  match b.find? (fun c => c.1 == n) with
  | some c => some c.2
  | none => none

/-- Column assignment (pandas `df[n] = s`): overwrites an existing column in
place, otherwise appends at the end. -/
def setCol (b : Batch) (n : String) (v : Column) : Batch :=
  match b with
  | [] => [(n, v)]
  | c :: rest => if c.1 == n then (n, v) :: rest else c :: setCol rest n v

/-- Column removal (pandas `df.drop(columns=ns, inplace=True)`). -/
def dropCols (b : Batch) (ns : List String) : Batch :=
  b.filter (fun c => !(ns.contains c.1))

/-- An error raised by the user-defined transform itself. -/
inductive TransformError where
  | err : String → TransformError
deriving DecidableEq, Repr

/-- The user-defined transform: a named, pure batch-to-batch function that
may raise (the source keeps it as a Python function object with `__name__`). -/
structure Transform where
  name : String
  fn : Batch → Except TransformError Batch

/-- An error raised by the deserializer (`dill`) when the serialized body
cannot be reconstituted. -/
inductive DillError where
  | unpicklingError : String → DillError
deriving DecidableEq, Repr

/-- Modelled from the spec: the opaque closure-capturing serialization of the
transform body (`dill.dumps` output; `dill` is not under src/).  A body whose
references cannot be resolved in the current process is embedded as `none`. -/
structure SerializedBody where
  decoded : Option Transform

/-- Modelled from the spec: `dill.dumps(udf, recurse=True)`, a faithful
closure-capturing serialization. -/
def dill_dumps (t : Transform) : SerializedBody :=
  SerializedBody.mk (some t)

/-- Modelled from the spec: `dill.loads`, which either reconstitutes the
serialized transform or raises its own deserialization error. -/
def dill_loads (b : SerializedBody) : Except DillError Transform :=
  match b.decoded with
  | some t => Except.ok t
  | none => Except.error (DillError.unpicklingError "unresolvable serialized transform body")

/-- Modelled from the spec: the wire form of a Feature Schema Element
(name, value-type ordinal, labels). -/
structure FeatureProto where
  name : String
  value_type : Nat
  labels : List (String × String)

/-- Modelled from the spec: an upstream feature group
(`feast.feature_view.FeatureView`, not under src/): its name and its ordered
Feature Schema Elements. -/
structure FeatureView where
  name : String
  features : List Feature

/-- Modelled from the spec: the wire form of an upstream feature group. -/
structure FeatureViewProto where
  name : String
  features : List FeatureProto

/-- Modelled from the spec: `Feature.to_proto` (not under src/). -/
def Feature.to_proto (f : Feature) : FeatureProto :=
  FeatureProto.mk f.name (valueTypeToOrdinal f.dtype) f.labels

/-- Reconstructing a Feature from its wire form, as `from_proto` does:
`Feature(name=p.name, dtype=ValueType(p.value_type), labels=dict(p.labels))`. -/
def featureFromProto (p : FeatureProto) : Feature :=
  Feature.mk p.name (ordinalToValueType p.value_type) p.labels

/-- Modelled from the spec: `FeatureView.to_proto` (not under src/),
recursively encoding the group's Feature Schema Elements. -/
def FeatureView.to_proto (fv : FeatureView) : FeatureViewProto :=
  FeatureViewProto.mk fv.name (fv.features.map Feature.to_proto)

/-- Modelled from the spec: `FeatureView.from_proto` (not under src/),
recursively decoding the group's Feature Schema Elements. -/
def FeatureView.from_proto (p : FeatureViewProto) : FeatureView :=
  FeatureView.mk p.name (p.features.map featureFromProto)

/-- The wire form of the Transform Unit: `{identity_name, opaque body}`. -/
structure UserDefinedFunctionProto where
  name : String
  body : SerializedBody

/-- The spec message of the wire form of an on-demand feature view. -/
structure OnDemandFeatureViewSpec where
  name : String
  features : List FeatureProto
  inputs : List (String × FeatureViewProto)
  user_defined_function : UserDefinedFunctionProto

/-- The wire form of an on-demand feature view. -/
structure OnDemandFeatureViewProto where
  spec : OnDemandFeatureViewSpec

/-- The On-Demand Feature Definition: name, declared output schema, input
feature groups keyed by alias, and the user-defined transform. -/
structure OnDemandFeatureView where
  name : String
  features : List Feature
  inputs : List (String × FeatureView)
  udf : Transform

/-- `OnDemandFeatureView.to_proto`: encodes name, each Feature Schema
Element, each input group keyed by its alias, and the transform as
`{udf.__name__, dill.dumps(udf, recurse=True)}`. -/
def OnDemandFeatureView.to_proto (v : OnDemandFeatureView) : OnDemandFeatureViewProto :=
  OnDemandFeatureViewProto.mk
    (OnDemandFeatureViewSpec.mk
      v.name
      (v.features.map Feature.to_proto)
      (v.inputs.map (fun kv => (kv.1, kv.2.to_proto)))
      (UserDefinedFunctionProto.mk v.udf.name (dill_dumps v.udf)))

/-- `OnDemandFeatureView.from_proto`: rebuilds the definition from the wire
form; `dill.loads` is called with no surrounding error handling, so a
deserializer failure propagates as is. -/
def OnDemandFeatureView.from_proto (p : OnDemandFeatureViewProto) :
    Except DillError OnDemandFeatureView :=
  match dill_loads p.spec.user_defined_function.body with
  | Except.error e => Except.error e
  | Except.ok udf =>
      Except.ok
        (OnDemandFeatureView.mk
          p.spec.name
          (p.spec.features.map featureFromProto)
          (p.spec.inputs.map (fun kv => (kv.1, FeatureView.from_proto kv.2)))
          udf)

/-- One step of the prefix-copy loop of `get_transformed_features_df`: for a
feature of an input view, if the column `{input_fv.name}__{feature.name}` is
present in the batch, copy it into the bare column `feature.name` and record
that bare name for cleanup. -/
def prefixCopyStep (fvName : String) (acc : Batch × List String) (ft : Feature) :
    Batch × List String :=
  let full_feature_ref := fvName ++ "__" ++ ft.name
  match getCol acc.1 full_feature_ref with
  | some col => (setCol acc.1 ft.name col, acc.2 ++ [ft.name])
  | none => acc

/-- The whole prefix-copy phase: the nested loops over `self.inputs.values()`
and each view's features, threading the batch and `columns_to_cleanup`. -/
def prefixCopy (inputs : List (String × FeatureView)) (df : Batch) :
    Batch × List String :=
  inputs.foldl (fun acc kv => kv.2.features.foldl (prefixCopyStep kv.2.name) acc) (df, [])

/-- `OnDemandFeatureView.get_transformed_features_df`.  The returned pair is
the final state of the caller's batch (mutated in place by the source) and
the transform's result.  When the transform raises, the exception propagates
before the `drop` line runs, so no cleanup happens on that path. -/
def OnDemandFeatureView.get_transformed_features_df (v : OnDemandFeatureView)
    (full_feature_names : Bool) (df_with_features : Batch) :
    Batch × Except TransformError Batch :=
  let st := if full_feature_names then prefixCopy v.inputs df_with_features
            else (df_with_features, [])
  match v.udf.fn st.1 with
  | Except.error e => (st.1, Except.error e)
  | Except.ok out => (dropCols st.1 st.2, Except.ok out)

/-- An error raised by the feature-store core itself. -/
inductive FeastError where
  | specifiedFeaturesNotPresent : List String → String → FeastError
  | registryInferenceFailure : String → String → FeastError
deriving DecidableEq, Repr

/-- The outcome of `infer_features_from_batch_source`: a normal return, a
raised core error, or a propagated transform error from the probe run. -/
inductive InferOutcome where
  | ok : InferOutcome
  | feastError : FeastError → InferOutcome
  | transformError : TransformError → InferOutcome
deriving DecidableEq, Repr

/-- The zero-row probe batch of `infer_features_from_batch_source`: for every
input view's every feature, two empty columns `{feature_view.name}__{name}`
and `{name}`, both with the pandas dtype mapped from the declared value
type. -/
def probeBatch (v : OnDemandFeatureView) : Batch :=
  v.inputs.foldl (fun df kv =>
    kv.2.features.foldl (fun df ft =>
      let dtype := feast_value_type_to_pandas_type ft.dtype
      setCol (setCol df (kv.2.name ++ "__" ++ ft.name) (Column.mk dtype []))
        ft.name (Column.mk dtype [])) df) []

/-- The features read back from the probe output: one Feature per output
column, named after the column, typed through the native-type-to-value-type
mapping (the `zip(output_df.columns, output_df.dtypes)` loop). -/
def inferredFeaturesOf (out : Batch) : List Feature :=
  out.map (fun c => Feature.mk c.1 (python_type_to_feast_value_type c.1 c.2.dtype) [])

/-- The trailing `if not self.features: raise RegistryInferenceFailure`
check of `infer_features_from_batch_source`. -/
def finalCheck (v : OnDemandFeatureView) : OnDemandFeatureView × InferOutcome :=
  if v.features.isEmpty then
    (v, InferOutcome.feastError
      (FeastError.registryInferenceFailure "OnDemandFeatureView" v.name))
  else (v, InferOutcome.ok)

/-- `OnDemandFeatureView.infer_features_from_batch_source`.  Returns the
final state of the definition (the source mutates `self.features` in place)
together with the outcome. -/
def OnDemandFeatureView.infer_features_from_batch_source (v : OnDemandFeatureView) :
    OnDemandFeatureView × InferOutcome :=
  match v.udf.fn (probeBatch v) with
  | Except.error e => (v, InferOutcome.transformError e)
  | Except.ok output_df =>
      let inferred_features := inferredFeaturesOf output_df
      if !v.features.isEmpty then
        let missing_features :=
          v.features.filter (fun sf => !(inferred_features.any (fun inf => Feature.feq sf inf)))
        if !missing_features.isEmpty then
          (v, InferOutcome.feastError
            (FeastError.specifiedFeaturesNotPresent
              (missing_features.map Feature.name) v.name))
        else finalCheck v
      else finalCheck { v with features := inferred_features }

theorem ordinal_roundtrip (v : ValueType) :
    ordinalToValueType (valueTypeToOrdinal v) = v := by
  cases v <;> rfl

theorem feature_roundtrip (f : Feature) :
    featureFromProto (Feature.to_proto f) = f := by
  cases f with
  | mk n d l => simp [Feature.to_proto, featureFromProto, ordinal_roundtrip]

theorem feature_view_roundtrip (fv : FeatureView) :
    FeatureView.from_proto (FeatureView.to_proto fv) = fv := by
  cases fv with
  | mk n fs =>
      simp [FeatureView.to_proto, FeatureView.from_proto, List.map_map]
      have h : ∀ g ∈ fs, (featureFromProto ∘ Feature.to_proto) g = id g := by
        intro g _
        simp [feature_roundtrip]
      rw [List.map_congr_left h, List.map_id]

theorem odfv_from_proto_to_proto (v : OnDemandFeatureView) :
    OnDemandFeatureView.from_proto (OnDemandFeatureView.to_proto v) = Except.ok v := by
  cases v with
  | mk n fs ins u =>
      simp [OnDemandFeatureView.to_proto, OnDemandFeatureView.from_proto,
        dill_dumps, dill_loads, List.map_map]
      constructor
      · have h : ∀ g ∈ fs, (featureFromProto ∘ Feature.to_proto) g = id g := by
          intro g _
          simp [feature_roundtrip]
        rw [List.map_congr_left h, List.map_id]
      · have h : ∀ kv ∈ ins,
            ((fun kv => (kv.1, FeatureView.from_proto kv.2)) ∘
              (fun kv => (kv.1, FeatureView.to_proto kv.2))) kv = id kv := by
          intro kv _
          simp [feature_view_roundtrip]
        rw [List.map_congr_left h, List.map_id]

theorem mem_keys_setCol (b : Batch) (n : String) (c : Column) (k : String) :
    k ∈ keys (setCol b n c) ↔ (k ∈ keys b ∨ k = n) := by
  induction b with
  | nil => simp [setCol, keys]
  | cons hd tl ih =>
      by_cases h : hd.1 = n
      · simp [setCol, h, keys]
        tauto
      · simp [setCol, h, keys] at ih ⊢
        tauto

theorem mem_keys_dropCols (b : Batch) (ns : List String) (k : String) :
    k ∈ keys (dropCols b ns) ↔ (k ∈ keys b ∧ k ∉ ns) := by
  simp [keys, dropCols, List.mem_filter, List.mem_map]

theorem dropCols_nil (b : Batch) : dropCols b [] = b := by
  simp [dropCols]

theorem prefixCopyStep_inv (b0 : Batch) (n : String) (ft : Feature)
    (acc : Batch × List String)
    (h : ∀ k, k ∈ keys acc.1 ↔ (k ∈ keys b0 ∨ k ∈ acc.2)) :
    ∀ k, k ∈ keys (prefixCopyStep n acc ft).1 ↔
      (k ∈ keys b0 ∨ k ∈ (prefixCopyStep n acc ft).2) := by
  intro k
  simp only [prefixCopyStep]
  cases hg : getCol acc.1 (n ++ "__" ++ ft.name) with
  | none => simp [hg, h k]
  | some col =>
      simp [hg, mem_keys_setCol, h k]
      tauto

theorem prefixCopy_fold_features_inv (b0 : Batch) (n : String) (fts : List Feature) :
    ∀ acc : Batch × List String,
      (∀ k, k ∈ keys acc.1 ↔ (k ∈ keys b0 ∨ k ∈ acc.2)) →
      ∀ k, k ∈ keys (fts.foldl (prefixCopyStep n) acc).1 ↔
        (k ∈ keys b0 ∨ k ∈ (fts.foldl (prefixCopyStep n) acc).2) := by
  induction fts with
  | nil => intro acc h; simpa using h
  | cons ft rest ih =>
      intro acc h
      exact ih (prefixCopyStep n acc ft) (prefixCopyStep_inv b0 n ft acc h)

theorem prefixCopy_fold_inputs_inv (b0 : Batch) (inputs : List (String × FeatureView)) :
    ∀ acc : Batch × List String,
      (∀ k, k ∈ keys acc.1 ↔ (k ∈ keys b0 ∨ k ∈ acc.2)) →
      ∀ k,
        k ∈ keys ((inputs.foldl
          (fun a kv => kv.2.features.foldl (prefixCopyStep kv.2.name) a) acc)).1 ↔
        (k ∈ keys b0 ∨ k ∈ ((inputs.foldl
          (fun a kv => kv.2.features.foldl (prefixCopyStep kv.2.name) a) acc)).2) := by
  induction inputs with
  | nil => intro acc h; simpa using h
  | cons kv rest ih =>
      intro acc h
      exact ih _ (prefixCopy_fold_features_inv b0 kv.2.name kv.2.features acc h)

theorem prefixCopy_keys (inputs : List (String × FeatureView)) (b : Batch) (k : String) :
    k ∈ keys (prefixCopy inputs b).1 ↔ (k ∈ keys b ∨ k ∈ (prefixCopy inputs b).2) := by
  have h0 : ∀ k, k ∈ keys ((b, ([] : List String)) : Batch × List String).1 ↔
      (k ∈ keys b ∨ k ∈ ((b, ([] : List String)) : Batch × List String).2) := by
    intro k
    simp
  exact prefixCopy_fold_inputs_inv b inputs (b, []) h0 k

/-- C1 (amended): on the normal-return path, the input batch ends with its
pre-call column set minus every bare name recorded for cleanup (a bare column
is dropped even when it existed before the call); on the raising path the
exception propagates before the drop, so no cleanup happens and the batch is
left exactly as the prefix-copy phase produced it. -/
theorem apply_cleanup_columns (v : OnDemandFeatureView) (b : Batch) :
    (∀ out, v.udf.fn (prefixCopy v.inputs b).1 = Except.ok out →
      ∀ k, k ∈ keys (v.get_transformed_features_df true b).1 ↔
        (k ∈ keys b ∧ k ∉ (prefixCopy v.inputs b).2)) ∧
    (∀ e, v.udf.fn (prefixCopy v.inputs b).1 = Except.error e →
      (v.get_transformed_features_df true b).1 = (prefixCopy v.inputs b).1) := by
  constructor
  · intro out hout k
    simp only [OnDemandFeatureView.get_transformed_features_df, if_true, hout]
    rw [mem_keys_dropCols, prefixCopy_keys]
    tauto
  · intro e he
    simp [OnDemandFeatureView.get_transformed_features_df, he]

/-- The upstream feature group used by the concrete engine scenarios. -/
def fvX : FeatureView :=
  FeatureView.mk "fv1" [Feature.mk "x" ValueType.DOUBLE []]

/-- A transform that always raises. -/
def raisingUdf : Transform :=
  Transform.mk "t1" (fun _ => Except.error (TransformError.err "boom"))

/-- A transform that always returns one fresh column. -/
def okUdf : Transform :=
  Transform.mk "t2" (fun _ => Except.ok [("y", Column.mk PandasType.int64 [])])

def dC1 : OnDemandFeatureView :=
  OnDemandFeatureView.mk "d1" [] [("fv1", fvX)] raisingUdf

def bC1 : Batch :=
  [("fv1__x", Column.mk PandasType.float64 [Val.vInt 1])]

def dW1 : OnDemandFeatureView :=
  OnDemandFeatureView.mk "d1w" [] [("fv1", fvX)] okUdf

/-- C1 counterexample: with a raising transform the synthesized bare column
`x` leaks — the batch that held only `fv1__x` before the call holds
`fv1__x` and `x` afterwards, so the column set is not restored on the
raising path. -/
theorem apply_cleanup_claim_counterexample :
    keys ((dC1.get_transformed_features_df true bC1).1) = ["fv1__x", "x"] ∧
    keys bC1 = ["fv1__x"] ∧
    keys ((dC1.get_transformed_features_df true bC1).1) ≠ keys bC1 := by
  refine ⟨rfl, rfl, by decide⟩

/-- C1 witness: the amended cleanup theorem applied on a concrete success
path and a concrete raising path. -/
theorem apply_cleanup_witness :
    ("x" ∈ keys ((dW1.get_transformed_features_df true bC1).1) ↔
      ("x" ∈ keys bC1 ∧ "x" ∉ (prefixCopy dW1.inputs bC1).2)) ∧
    (dC1.get_transformed_features_df true bC1).1 = (prefixCopy dC1.inputs bC1).1 :=
  ⟨(apply_cleanup_columns dW1 bC1).1 [("y", Column.mk PandasType.int64 [])] rfl "x",
    (apply_cleanup_columns dC1 bC1).2 (TransformError.err "boom") rfl⟩

/-- One bare-column copy, acting on the batch alone: if the column
`{group_name}__{feature_name}` is present, its values are copied into the
bare-named column. -/
def bareCopy (n : String) (df : Batch) (ft : Feature) : Batch :=
  match getCol df (n ++ "__" ++ ft.name) with
  | some col => setCol df ft.name col
  | none => df

/-- Following the spec's words for prefix transparency: the equivalent batch
whose bare columns are populated from the prefixed values — for every
upstream feature group's every Feature Schema Element, if the prefixed column
exists in the batch, its values are copied into the bare-named column. -/
def specPopulate (v : OnDemandFeatureView) (b : Batch) : Batch :=
  v.inputs.foldl (fun df kv => kv.2.features.foldl (bareCopy kv.2.name) df) b

theorem prefixCopyStep_fst (n : String) (acc : Batch × List String) (ft : Feature) :
    (prefixCopyStep n acc ft).1 = bareCopy n acc.1 ft := by
  simp only [prefixCopyStep, bareCopy]
  cases hg : getCol acc.1 (n ++ "__" ++ ft.name) <;> simp [hg]

theorem fold_features_fst (n : String) (fts : List Feature) :
    ∀ acc : Batch × List String,
      (fts.foldl (prefixCopyStep n) acc).1 = fts.foldl (bareCopy n) acc.1 := by
  induction fts with
  | nil => intro acc; rfl
  | cons ft rest ih =>
      intro acc
      rw [List.foldl_cons, List.foldl_cons, ih, prefixCopyStep_fst]

theorem fold_inputs_fst (inputs : List (String × FeatureView)) :
    ∀ acc : Batch × List String,
      ((inputs.foldl
        (fun a kv => kv.2.features.foldl (prefixCopyStep kv.2.name) a) acc)).1 =
      inputs.foldl (fun df kv => kv.2.features.foldl (bareCopy kv.2.name) df) acc.1 := by
  induction inputs with
  | nil => intro acc; rfl
  | cons kv rest ih =>
      intro acc
      rw [List.foldl_cons, List.foldl_cons, ih, fold_features_fst]

theorem prefixCopy_fst (v : OnDemandFeatureView) (b : Batch) :
    (prefixCopy v.inputs b).1 = specPopulate v b :=
  fold_inputs_fst v.inputs (b, [])

/-- C3 (amended): for a batch containing only prefixed columns named with the
upstream feature group's own name (the engine prefixes with
`input_fv.name`, not the inputs-mapping alias), the engine's output equals
the raw transform applied to the batch whose bare columns are populated from
the prefixed values. -/
theorem prefix_transparency_groupname (v : OnDemandFeatureView) (b : Batch)
    (_h : ∀ c ∈ b, ∃ kv ∈ v.inputs, ∃ ft ∈ kv.2.features,
      c.1 = kv.2.name ++ "__" ++ ft.name) :
    (v.get_transformed_features_df true b).2 = v.udf.fn (specPopulate v b) := by
  rw [← prefixCopy_fst]
  cases hf : v.udf.fn (prefixCopy v.inputs b).1 with
  | error e => simp [OnDemandFeatureView.get_transformed_features_df, hf]
  | ok out => simp [OnDemandFeatureView.get_transformed_features_df, hf]

/-- A transform that reads the bare column `x` and echoes its values under
output column `y` (an empty `y` when `x` is absent). -/
def udf3 : Transform :=
  Transform.mk "t3"
    (fun b => Except.ok [("y", (getCol b "x").getD (Column.mk PandasType.float64 []))])

def dC3 : OnDemandFeatureView :=
  OnDemandFeatureView.mk "d3" [] [("a", fvX)] udf3

def bC3 : Batch :=
  [("a__x", Column.mk PandasType.float64 [Val.vInt 7])]

def bW3 : Batch :=
  [("fv1__x", Column.mk PandasType.float64 [Val.vInt 7])]

/-- C3 counterexample: the input group is bound under alias `a` but named
`fv1`; on a batch whose only column is the alias-prefixed `a__x`, the engine
copies nothing (it looks for `fv1__x`), so its output differs from the raw
transform applied to the batch with the bare `x` populated from `a__x`. -/
theorem prefix_transparency_alias_counterexample :
    (dC3.get_transformed_features_df true bC3).2 =
      Except.ok [("y", Column.mk PandasType.float64 [])] ∧
    dC3.udf.fn (setCol bC3 "x" (Column.mk PandasType.float64 [Val.vInt 7])) =
      Except.ok [("y", Column.mk PandasType.float64 [Val.vInt 7])] ∧
    ([("y", Column.mk PandasType.float64 [])] : Batch) ≠
      [("y", Column.mk PandasType.float64 [Val.vInt 7])] := by
  refine ⟨rfl, rfl, by decide⟩

/-- C3 witness: the amended transparency theorem applied to a concrete batch
holding only the group-name-prefixed column `fv1__x`. -/
theorem prefix_transparency_witness :
    (dC3.get_transformed_features_df true bW3).2 = dC3.udf.fn (specPopulate dC3 bW3) :=
  prefix_transparency_groupname dC3 bW3 (by decide)

/-- C10: with `full_feature_names=false` the engine performs no prefix copy
and no column removal — the input batch is returned unchanged — and the
result is exactly the transform applied to the input batch as given
(including a propagated transform error). -/
theorem apply_no_prefix_identity (v : OnDemandFeatureView) (b : Batch) :
    (v.get_transformed_features_df false b).1 = b ∧
    (v.get_transformed_features_df false b).2 = v.udf.fn b := by
  cases hf : v.udf.fn b with
  | error e => simp [OnDemandFeatureView.get_transformed_features_df, hf]
  | ok out => simp [OnDemandFeatureView.get_transformed_features_df, hf, dropCols_nil]

/-- C2: decoding the encoding of any definition succeeds and yields a
definition with the same name, the same Feature Schema Elements, the same
input aliases with equivalent upstream feature groups, and a transform that
produces the same output as the original on any fixed input batch. -/
theorem roundtrip_from_proto_to_proto (v : OnDemandFeatureView) :
    ∃ v2, OnDemandFeatureView.from_proto (OnDemandFeatureView.to_proto v) = Except.ok v2 ∧
      v2.name = v.name ∧ v2.features = v.features ∧ v2.inputs = v.inputs ∧
      ∀ b, v2.udf.fn b = v.udf.fn b :=
  ⟨v, odfv_from_proto_to_proto v, rfl, rfl, rfl, fun _ => rfl⟩

/-- C8 (amended): when the serialized transform body cannot be deserialized,
`from_proto` propagates the deserializer's own error unwrapped — there is no
MalformedDefinition wrapping anywhere in the code. -/
theorem from_proto_propagates_dill_error (p : OnDemandFeatureViewProto) (e : DillError)
    (h : dill_loads p.spec.user_defined_function.body = Except.error e) :
    OnDemandFeatureView.from_proto p = Except.error e := by
  simp [OnDemandFeatureView.from_proto, h]

/-- A wire form whose serialized transform body is unresolvable. -/
def badProto : OnDemandFeatureViewProto :=
  OnDemandFeatureViewProto.mk
    (OnDemandFeatureViewSpec.mk "bad" [] []
      (UserDefinedFunctionProto.mk "t" (SerializedBody.mk none)))

/-- C8 counterexample: on a wire form whose body cannot be deserialized,
`from_proto` surfaces exactly the deserializer's own error — the raw
unpickling error, not a MalformedDefinition wrapper. -/
theorem from_proto_unwrapped_error_counterexample :
    OnDemandFeatureView.from_proto badProto =
      Except.error (DillError.unpicklingError "unresolvable serialized transform body") ∧
    dill_loads badProto.spec.user_defined_function.body =
      Except.error (DillError.unpicklingError "unresolvable serialized transform body") :=
  ⟨rfl, rfl⟩

/-- C8 witness: the propagation theorem applied to the concrete bad wire
form. -/
theorem from_proto_propagates_dill_error_witness :
    OnDemandFeatureView.from_proto badProto =
      Except.error (DillError.unpicklingError "unresolvable serialized transform body") :=
  from_proto_propagates_dill_error badProto
    (DillError.unpicklingError "unresolvable serialized transform body") rfl

/-- C4: when no features are pre-declared and the probe run returns
normally, `features` afterwards is exactly the list of features read from
the probe output's columns and native dtypes — no more and no fewer. -/
theorem infer_sets_features (v : OnDemandFeatureView) (out : Batch)
    (h1 : v.features = []) (h2 : v.udf.fn (probeBatch v) = Except.ok out) :
    (v.infer_features_from_batch_source).1.features = inferredFeaturesOf out := by
  simp only [OnDemandFeatureView.infer_features_from_batch_source, h2, h1,
    List.isEmpty_nil, Bool.not_true, Bool.false_eq_true, if_false, finalCheck]
  split <;> rfl

/-- The concrete definition of the C4 witness: no declared features, probe
output has one int64 column. -/
def dW4 : OnDemandFeatureView :=
  OnDemandFeatureView.mk "d4" [] []
    (Transform.mk "t4" (fun _ => Except.ok [("a", Column.mk PandasType.int64 [])]))

/-- C4 witness: the inference theorem applied to the concrete definition. -/
theorem infer_sets_features_witness :
    (dW4.infer_features_from_batch_source).1.features =
      inferredFeaturesOf [("a", Column.mk PandasType.int64 [])] :=
  infer_sets_features dW4 [("a", Column.mk PandasType.int64 [])] rfl rfl

/-- C5 (amended): with pre-declared features and a normal probe run, the
engine raises SpecifiedFeaturesNotPresent — carrying the missing features'
names and the definition name — iff some declared feature is absent from the
inferred features under Feature equality by (name, value_type); when every
declared feature is matched under that equality, the run returns normally. -/
theorem infer_missing_features_iff (v : OnDemandFeatureView) (out : Batch)
    (h1 : v.features ≠ []) (h2 : v.udf.fn (probeBatch v) = Except.ok out) :
    ((v.infer_features_from_batch_source).2 =
      InferOutcome.feastError (FeastError.specifiedFeaturesNotPresent
        ((v.features.filter (fun sf =>
          !((inferredFeaturesOf out).any (fun inf => Feature.feq sf inf)))).map Feature.name)
        v.name) ↔
      v.features.filter (fun sf =>
        !((inferredFeaturesOf out).any (fun inf => Feature.feq sf inf))) ≠ []) ∧
    (v.features.filter (fun sf =>
        !((inferredFeaturesOf out).any (fun inf => Feature.feq sf inf))) = [] →
      (v.infer_features_from_batch_source).2 = InferOutcome.ok) := by
  have hne : v.features.isEmpty = false := List.isEmpty_eq_false.mpr h1
  by_cases hm : v.features.filter (fun sf =>
      !((inferredFeaturesOf out).any (fun inf => Feature.feq sf inf))) = []
  · simp [OnDemandFeatureView.infer_features_from_batch_source, h2, hne, hm, finalCheck]
  · have hm' : (v.features.filter (fun sf =>
        !((inferredFeaturesOf out).any (fun inf => Feature.feq sf inf)))).isEmpty = false :=
      List.isEmpty_eq_false.mpr hm
    simp [OnDemandFeatureView.infer_features_from_batch_source, h2, hne, hm', hm]

/-- The concrete definition of the C5 scenario: feature `c` declared STRING,
probe output produces a column named `c` with int64 dtype. -/
def dC5 : OnDemandFeatureView :=
  OnDemandFeatureView.mk "d5" [Feature.mk "c" ValueType.STRING []] []
    (Transform.mk "t5" (fun _ => Except.ok [("c", Column.mk PandasType.int64 [])]))

/-- The probe output of the C5 scenario. -/
def out5 : Batch := [("c", Column.mk PandasType.int64 [])]

/-- C5 counterexample: the declared name `c` is present among the probe
output's columns, yet SpecifiedFeaturesNotPresent is raised listing `c`,
because the membership check compares (name, value_type), not names. -/
theorem infer_missing_by_name_counterexample :
    (dC5.infer_features_from_batch_source).2 =
      InferOutcome.feastError (FeastError.specifiedFeaturesNotPresent ["c"] "d5") ∧
    (inferredFeaturesOf out5).map Feature.name = ["c"] :=
  ⟨rfl, rfl⟩

/-- C5 witness: the amended iff theorem applied to the concrete scenario. -/
theorem infer_missing_features_witness :
    ((dC5.infer_features_from_batch_source).2 =
      InferOutcome.feastError (FeastError.specifiedFeaturesNotPresent
        ((dC5.features.filter (fun sf =>
          !((inferredFeaturesOf out5).any (fun inf => Feature.feq sf inf)))).map Feature.name)
        dC5.name) ↔
      dC5.features.filter (fun sf =>
        !((inferredFeaturesOf out5).any (fun inf => Feature.feq sf inf))) ≠ []) ∧
    (dC5.features.filter (fun sf =>
        !((inferredFeaturesOf out5).any (fun inf => Feature.feq sf inf))) = [] →
      (dC5.infer_features_from_batch_source).2 = InferOutcome.ok) :=
  infer_missing_features_iff dC5 out5 (by decide) rfl

/-- C6: a definition with no pre-declared features whose probe run returns a
batch with zero columns fails with RegistryInferenceFailure naming the
definition; equivalently, whenever the engine returns normally the features
list is non-empty afterwards. -/
theorem infer_empty_failure :
    (∀ v : OnDemandFeatureView, v.features = [] →
      v.udf.fn (probeBatch v) = Except.ok [] →
      (v.infer_features_from_batch_source).2 =
        InferOutcome.feastError
          (FeastError.registryInferenceFailure "OnDemandFeatureView" v.name)) ∧
    (∀ v : OnDemandFeatureView,
      (v.infer_features_from_batch_source).2 = InferOutcome.ok →
      (v.infer_features_from_batch_source).1.features ≠ []) := by
  constructor
  · intro v h1 h2
    simp [OnDemandFeatureView.infer_features_from_batch_source, h2, h1,
      inferredFeaturesOf, finalCheck]
  · intro v
    cases hf : v.udf.fn (probeBatch v) with
    | error e => simp [OnDemandFeatureView.infer_features_from_batch_source, hf]
    | ok out =>
        by_cases hv : v.features.isEmpty
        · by_cases hi : (inferredFeaturesOf out).isEmpty
          · simp [OnDemandFeatureView.infer_features_from_batch_source, hf, hv,
              finalCheck, hi]
          · intro _
            simp [OnDemandFeatureView.infer_features_from_batch_source, hf, hv,
              finalCheck, hi]
            exact List.isEmpty_eq_false.mp (Bool.eq_false_iff.mpr hi)
        · have hv' : v.features.isEmpty = false := Bool.eq_false_iff.mpr hv
          by_cases hm : (v.features.filter (fun sf =>
              !((inferredFeaturesOf out).any (fun inf => Feature.feq sf inf)))).isEmpty
          · intro _
            simp [OnDemandFeatureView.infer_features_from_batch_source, hf, hv',
              finalCheck, hm]
            exact List.isEmpty_eq_false.mp hv'
          · have hm' : (v.features.filter (fun sf =>
                !((inferredFeaturesOf out).any (fun inf => Feature.feq sf inf)))).isEmpty
                  = false := Bool.eq_false_iff.mpr hm
            simp [OnDemandFeatureView.infer_features_from_batch_source, hf, hv',
              finalCheck, hm']

/-- The concrete definition of the C6 failure path: nothing declared and a
probe output with zero columns. -/
def dA6 : OnDemandFeatureView :=
  OnDemandFeatureView.mk "d6" [] [] (Transform.mk "t6" (fun _ => Except.ok []))

/-- The concrete definition of the C6 success path: nothing declared and a
probe output with one column. -/
def dB6 : OnDemandFeatureView :=
  OnDemandFeatureView.mk "d6b" [] []
    (Transform.mk "t6b" (fun _ => Except.ok [("y", Column.mk PandasType.int64 [])]))

/-- C6 witness: the failure theorem applied on the zero-column probe, and
the non-emptiness conclusion applied on a normal run. -/
theorem infer_empty_failure_witness :
    (dA6.infer_features_from_batch_source).2 =
      InferOutcome.feastError
        (FeastError.registryInferenceFailure "OnDemandFeatureView" "d6") ∧
    (dB6.infer_features_from_batch_source).1.features ≠ [] :=
  ⟨infer_empty_failure.1 dA6 rfl rfl, infer_empty_failure.2 dB6 rfl⟩

/-- C9: inference never modifies `name`, `inputs`, or the transform, and it
assigns `features` only when the list was empty before the call: a
pre-declared features list is left exactly as declared on every path. -/
theorem infer_frame (v : OnDemandFeatureView) :
    (v.infer_features_from_batch_source).1.name = v.name ∧
    (v.infer_features_from_batch_source).1.inputs = v.inputs ∧
    (v.infer_features_from_batch_source).1.udf = v.udf ∧
    (v.features ≠ [] → (v.infer_features_from_batch_source).1.features = v.features) := by
  cases hf : v.udf.fn (probeBatch v) with
  | error e => simp [OnDemandFeatureView.infer_features_from_batch_source, hf]
  | ok out =>
      by_cases hv : v.features.isEmpty
      · have hv' : v.features = [] := List.isEmpty_iff.mp hv
        by_cases hi : (inferredFeaturesOf out).isEmpty <;>
          simp [OnDemandFeatureView.infer_features_from_batch_source, hf, hv,
            finalCheck, hi, hv']
      · have hv' : v.features.isEmpty = false := Bool.eq_false_iff.mpr hv
        by_cases hm : (v.features.filter (fun sf =>
            !((inferredFeaturesOf out).any (fun inf => Feature.feq sf inf)))).isEmpty
        · simp [OnDemandFeatureView.infer_features_from_batch_source, hf, hv',
            finalCheck, hm]
        · have hm' : (v.features.filter (fun sf =>
              !((inferredFeaturesOf out).any (fun inf => Feature.feq sf inf)))).isEmpty
                = false := Bool.eq_false_iff.mpr hm
          simp [OnDemandFeatureView.infer_features_from_batch_source, hf, hv',
            finalCheck, hm']

/-- The concrete definition of the C9 witness: a pre-declared feature that
the probe run reproduces. -/
def d9 : OnDemandFeatureView :=
  OnDemandFeatureView.mk "d9" [Feature.mk "c" ValueType.INT64 []] []
    (Transform.mk "t9" (fun _ => Except.ok [("c", Column.mk PandasType.int64 [])]))

/-- C9 witness: the frame theorem applied to the concrete definition. -/
theorem infer_frame_witness :
    (d9.infer_features_from_batch_source).1.name = d9.name ∧
    (d9.infer_features_from_batch_source).1.inputs = d9.inputs ∧
    (d9.infer_features_from_batch_source).1.udf = d9.udf ∧
    (d9.infer_features_from_batch_source).1.features = d9.features :=
  ⟨(infer_frame d9).1, (infer_frame d9).2.1, (infer_frame d9).2.2.1,
    (infer_frame d9).2.2.2 (by decide)⟩

/-- Sequential column assignment of a list of writes. -/
def writeAll (b : Batch) (ws : List (String × Column)) : Batch :=
  ws.foldl (fun df w => setCol df w.1 w.2) b

/-- The list of column writes the probe construction performs, in order: for
every input view's every feature, the prefixed column then the bare column,
both empty and typed through the value-type mapping. -/
def probeWrites (v : OnDemandFeatureView) : List (String × Column) :=
  v.inputs.flatMap (fun kv =>
    kv.2.features.flatMap (fun ft =>
      [(kv.2.name ++ "__" ++ ft.name,
        Column.mk (feast_value_type_to_pandas_type ft.dtype) []),
       (ft.name, Column.mk (feast_value_type_to_pandas_type ft.dtype) [])]))

theorem writeAll_append (b : Batch) (l1 l2 : List (String × Column)) :
    writeAll b (l1 ++ l2) = writeAll (writeAll b l1) l2 := by
  simp [writeAll, List.foldl_append]

theorem probe_features_foldl (n : String) (fts : List Feature) :
    ∀ df : Batch,
      fts.foldl (fun df ft =>
        let dtype := feast_value_type_to_pandas_type ft.dtype
        setCol (setCol df (n ++ "__" ++ ft.name) (Column.mk dtype []))
          ft.name (Column.mk dtype [])) df =
      writeAll df (fts.flatMap (fun ft =>
        [(n ++ "__" ++ ft.name, Column.mk (feast_value_type_to_pandas_type ft.dtype) []),
         (ft.name, Column.mk (feast_value_type_to_pandas_type ft.dtype) [])])) := by
  induction fts with
  | nil => intro df; rfl
  | cons ft rest ih =>
      intro df
      rw [List.foldl_cons, List.flatMap_cons, writeAll_append, ih]
      rfl

theorem probeBatch_eq_writeAll (v : OnDemandFeatureView) :
    probeBatch v = writeAll [] (probeWrites v) := by
  suffices h : ∀ (ins : List (String × FeatureView)) (df : Batch),
      (ins.foldl (fun df kv =>
        kv.2.features.foldl (fun df ft =>
          let dtype := feast_value_type_to_pandas_type ft.dtype
          setCol (setCol df (kv.2.name ++ "__" ++ ft.name) (Column.mk dtype []))
            ft.name (Column.mk dtype [])) df) df) =
      writeAll df (ins.flatMap (fun kv =>
        kv.2.features.flatMap (fun ft =>
          [(kv.2.name ++ "__" ++ ft.name,
            Column.mk (feast_value_type_to_pandas_type ft.dtype) []),
           (ft.name, Column.mk (feast_value_type_to_pandas_type ft.dtype) [])]))) by
    exact h v.inputs []
  intro ins
  induction ins with
  | nil => intro df; rfl
  | cons kv rest ih =>
      intro df
      rw [List.foldl_cons, List.flatMap_cons, writeAll_append, probe_features_foldl, ih]

theorem setCol_not_mem (b : Batch) (n : String) (c : Column) (h : n ∉ keys b) :
    setCol b n c = b ++ [(n, c)] := by
  induction b with
  | nil => rfl
  | cons hd tl ih =>
      simp only [keys, List.map_cons, List.mem_cons] at h
      push_neg at h
      have hb : (hd.1 == n) = false := beq_eq_false_iff_ne.mpr (fun he => h.1 he.symm)
      simp [setCol, hb, ih h.2]

theorem writeAll_fresh (ws : List (String × Column)) :
    ∀ b : Batch, (ws.map Prod.fst).Nodup → (∀ w ∈ ws, w.1 ∉ keys b) →
      writeAll b ws = b ++ ws := by
  induction ws with
  | nil => intro b _ _; simp [writeAll]
  | cons w rest ih =>
      intro b hnd hdisj
      have hstep : writeAll b (w :: rest) = writeAll (setCol b w.1 w.2) rest := rfl
      rw [hstep, setCol_not_mem b w.1 w.2 (hdisj w (by simp))]
      have hnd' : (rest.map Prod.fst).Nodup := (List.nodup_cons.mp hnd).2
      have hw : w.1 ∉ rest.map Prod.fst := (List.nodup_cons.mp hnd).1
      have hdisj' : ∀ u ∈ rest, u.1 ∉ keys (b ++ [(w.1, w.2)]) := by
        intro u hu
        simp only [keys, List.map_append, List.mem_append, List.map_cons,
          List.map_nil, List.mem_cons, List.not_mem_nil]
        rintro (huk | huk)
        · exact hdisj u (List.mem_cons_of_mem w hu) huk
        · rcases huk with huk | huk
          · exact hw (huk ▸ List.mem_map_of_mem Prod.fst hu)
          · exact huk
      rw [ih (b ++ [(w.1, w.2)]) hnd' hdisj']
      simp

theorem probeBatch_eq_probeWrites (v : OnDemandFeatureView)
    (h : ((probeWrites v).map Prod.fst).Nodup) :
    probeBatch v = probeWrites v := by
  rw [probeBatch_eq_writeAll, writeAll_fresh (probeWrites v) [] h (by simp [keys])]
  simp

/-- C7 (amended): provided the generated column names are pairwise distinct,
the probe batch has zero rows and contains, for every Feature Schema Element
of every input feature group, the two empty columns
`{feature_view.name}__{feature_name}` and `{feature_name}` — the group's own
name forms the prefix, not the inputs-mapping alias — both typed through the
value-type-to-pandas-type mapping applied to the declared value type. -/
theorem probe_batch_columns (v : OnDemandFeatureView)
    (h : ((probeWrites v).map Prod.fst).Nodup) :
    (∀ c ∈ probeBatch v, c.2.values = []) ∧
    (∀ kv ∈ v.inputs, ∀ ft ∈ kv.2.features,
      (kv.2.name ++ "__" ++ ft.name,
        Column.mk (feast_value_type_to_pandas_type ft.dtype) []) ∈ probeBatch v ∧
      (ft.name, Column.mk (feast_value_type_to_pandas_type ft.dtype) []) ∈ probeBatch v) := by
  rw [probeBatch_eq_probeWrites v h]
  constructor
  · intro c hc
    simp only [probeWrites, List.mem_flatMap, List.mem_cons,
      List.not_mem_nil, or_false] at hc
    rcases hc with ⟨kv, _, ft, _, hc | hc⟩
    · rw [hc]
    · rw [hc]
  · intro kv hkv ft hft
    constructor
    · simp only [probeWrites, List.mem_flatMap]
      exact ⟨kv, hkv, ft, hft, by simp⟩
    · simp only [probeWrites, List.mem_flatMap]
      exact ⟨kv, hkv, ft, hft, by simp⟩

/-- The concrete definition of the C7 scenario: the input group named `fv1`
is bound under the alias `a`. -/
def dC7 : OnDemandFeatureView :=
  OnDemandFeatureView.mk "d7" [] [("a", fvX)] okUdf

/-- C7 counterexample: the probe for a group named `fv1` bound under alias
`a` holds the columns `fv1__x` and `x`, not the alias-prefixed `a__x`. -/
theorem probe_alias_counterexample :
    keys (probeBatch dC7) = ["fv1__x", "x"] ∧ "a__x" ∉ keys (probeBatch dC7) := by
  refine ⟨rfl, by decide⟩

/-- C7 witness: the amended probe theorem applied to the concrete
definition, with its distinctness hypothesis discharged by computation. -/
theorem probe_batch_columns_witness :
    (∀ c ∈ probeBatch dC7, c.2.values = []) ∧
    (∀ kv ∈ dC7.inputs, ∀ ft ∈ kv.2.features,
      (kv.2.name ++ "__" ++ ft.name,
        Column.mk (feast_value_type_to_pandas_type ft.dtype) []) ∈ probeBatch dC7 ∧
      (ft.name, Column.mk (feast_value_type_to_pandas_type ft.dtype) []) ∈ probeBatch dC7) :=
  probe_batch_columns dC7 (by decide)

end Feast
